import Mathlib

/-!
Shallow embedding of the document-structure classifier of `src/app.py`
(the only original logic of the repository): the zone classifier for
header/footer detection in `extract_pdf_structure`, the regular-expression
pattern matchers, `detect_toc`, `detect_sections`, and the paragraph
extraction.  Python strings are modelled as Lean `String` (ASCII-faithful:
`\s`, `[A-Z]`, `\d`, `str.lower`, `str.strip` are modelled on their ASCII
meaning), float coordinates as exact rationals, Python `set` accumulation
as insertion-ordered duplicate-free lists.
-/

namespace App

/-- Python `\s` on ASCII text: space, tab, newline, carriage return,
vertical tab, form feed. -/
def isSpaceChar (c : Char) : Bool :=
  c = ' ' || c = '\t' || c = '\n' || c = '\r' || c = '\x0b' || c = '\x0c'

/-- Regex class `[A-Z]`. -/
def isUpperChar (c : Char) : Bool := 'A' ≤ c && c ≤ 'Z'

/-- Regex class `[a-z]`. -/
def lowerAlpha (c : Char) : Bool := 'a' ≤ c && c ≤ 'z'

/-- Regex class `[ivx]` used by the roman-numeral patterns. -/
def romanChar (c : Char) : Bool := c = 'i' || c = 'v' || c = 'x'

/-- Regex class `[–-]` (en dash or hyphen) of the TOC pattern
`^\s*[ivx]+(\s+[a-z])?\s*[–-]`. -/
def dashChar (c : Char) : Bool := c = '–' || c = '-'

/-- Regex class `[ivx\d]` of `^\s*(chapter|section|part|appendix)\s+[ivx\d]+`. -/
def romanOrDigit (c : Char) : Bool := romanChar c || c.isDigit

/-- Match a literal character sequence at the head of the text, returning
the remainder on success. -/
def matchLit : List Char → List Char → Option (List Char)
  | [], cs => some cs
  | _ :: _, [] => none
  | p :: ps, c :: cs => if p = c then matchLit ps cs else none

/-- Does the predicate hold of some suffix of the text?  This is the
`re.search` scan over all start positions. -/
def existsSuffix (p : List Char → Bool) : List Char → Bool
  | [] => p []
  | c :: cs => p (c :: cs) || existsSuffix p cs

/-- Substring occurrence: `re.search` of a literal pattern. -/
def containsSub (pat cs : List Char) : Bool :=
  existsSuffix (fun t => (matchLit pat t).isSome) cs

/-- Anchored match of `^\s*(chapter|section|part|appendix)\s+[ivx\d]+`:
optional leading whitespace, one of the four lowercase keywords, at least
one whitespace character, then at least one character in `[ivx\d]`.
Shared verbatim by the TOC pattern list and the heading pattern list of
`app.py` (lines 106 and 124). -/
def chapterNumAt (cs : List Char) : Bool :=
  let cs := cs.dropWhile isSpaceChar
  ["chapter".toList, "section".toList, "part".toList, "appendix".toList].any
    (fun w =>
      match matchLit w cs with
      | none => false
      | some r =>
        match r with
        | [] => false
        | c :: r2 =>
          isSpaceChar c &&
            (match r2.dropWhile isSpaceChar with
             | [] => false
             | c2 :: _ => romanOrDigit c2))

/-- State of `^\s*\d+(\.\d+)*\s+` after at least one digit has been read:
succeed on whitespace, keep reading digits, and on a dot require a digit
right after it. -/
def numDotTail : List Char → Bool
  | [] => false
  | c :: cs =>
    if isSpaceChar c then true
    else if c.isDigit then numDotTail cs
    else if c = '.' then
      match cs with
      | [] => false
      | c2 :: cs2 => if c2.isDigit then numDotTail cs2 else false
    else false

/-- Anchored match of `^\s*\d+(\.\d+)*\s+` (leading dotted-decimal
numbering followed by whitespace), a pattern shared by the TOC and the
heading lists (lines 107 and 125 of `app.py`). -/
def numDotAt (cs : List Char) : Bool :=
  match cs.dropWhile isSpaceChar with
  | [] => false
  | c :: cs2 => c.isDigit && numDotTail cs2

/-- After the optional `(\s+[a-z])?` group: `\s*[–-]`. -/
def dashAfterOptSpaces (cs : List Char) : Bool :=
  match cs.dropWhile isSpaceChar with
  | [] => false
  | c :: _ => dashChar c

/-- Anchored match of `^\s*[ivx]+(\s+[a-z])?\s*[–-]` (leading roman
numeral, optionally a whitespace-separated single lowercase letter, then
an optional-whitespace dash), TOC pattern of line 108 of `app.py`.  The
optional group is tried both ways, as the regex engine would. -/
def romanDashAt (cs : List Char) : Bool :=
  match cs.dropWhile isSpaceChar with
  | [] => false
  | c :: cs2 =>
    romanChar c &&
      (let r := cs2.dropWhile romanChar
       let withGroup :=
         match r with
         | [] => false
         | c1 :: r1 =>
           isSpaceChar c1 &&
             (match r1.dropWhile isSpaceChar with
              | [] => false
              | c2 :: r2 => lowerAlpha c2 && dashAfterOptSpaces r2)
       withGroup || dashAfterOptSpaces r)

/-- After `\.{3,}\s*`: `\d+$`, where Python `$` matches at the end of the
string or just before one final newline. -/
def endsAfterDigits (cs : List Char) : Bool :=
  match cs.dropWhile Char.isDigit with
  | [] => true
  | ['\n'] => true
  | _ => false

/-- Match of `\.{3,}\s*\d+$` starting at this position: a run of at least
three dots, optional whitespace, then digits reaching the end (TOC
pattern of line 109 of `app.py`; it is the only unanchored non-literal
pattern, so the search tries it at every position). -/
def dotLeaderAt (cs : List Char) : Bool :=
  (3 ≤ (cs.takeWhile (fun c => c = '.')).length) &&
    (match (cs.dropWhile (fun c => c = '.')).dropWhile isSpaceChar with
     | [] => false
     | c :: cs2 => c.isDigit && endsAfterDigits (c :: cs2))

/-- The TOC pattern list of `detect_toc` (`app.py` lines 104-110), in
source order, applied by `re.search` to the already lowercased sentence
text.  `r'contents'` and `r'table of contents'` are substring searches;
`r'chapters?'` (resp. `r'sections?'`) succeeds exactly when `chapter`
(resp. `section`) occurs, since the trailing `s?` is optional. -/
def matchesAnyToc (cs : List Char) : Bool :=
  containsSub "contents".toList cs ||
  containsSub "table of contents".toList cs ||
  containsSub "chapter".toList cs ||
  containsSub "section".toList cs ||
  chapterNumAt cs ||
  numDotAt cs ||
  romanDashAt cs ||
  existsSuffix dotLeaderAt cs

/-- Anchored match of `^\s*[A-Z][A-Z0-9\s]+\s*$`: optional leading
whitespace, an uppercase letter, then at least one further character all
of which are uppercase letters, digits or whitespace up to the end of the
string (heading pattern of line 126 of `app.py`). -/
def upperLineAt (cs : List Char) : Bool :=
  match cs.dropWhile isSpaceChar with
  | [] => false
  | c :: rest =>
    isUpperChar c && !rest.isEmpty &&
      rest.all (fun d => isUpperChar d || d.isDigit || isSpaceChar d)

/-- The heading pattern list of `detect_sections` (`app.py` lines
123-127), applied by `re.search` to the ORIGINAL-CASE sentence text. -/
def matchesAnyHeading (cs : List Char) : Bool :=
  chapterNumAt cs || numDotAt cs || upperLineAt cs

/-- Line 113 of `app.py`: `any(re.search(p, sent.text.lower()) for p in
toc_patterns)`.  `str.lower` is modelled on ASCII by `Char.toLower`. -/
def isTocSentence (s : String) : Bool :=
  matchesAnyToc (s.toList.map Char.toLower)

/-- Line 130 of `app.py`: `any(re.search(p, sent.text) for p in
heading_patterns)` — no lowercasing here. -/
def isHeading (s : String) : Bool :=
  matchesAnyHeading s.toList

/-- The loop of `detect_toc` (`app.py` lines 112-114): iterate the
sentence stream in order, appending the original sentence text whenever
the lowercased text matches some TOC pattern. -/
def detect_toc (sents : List String) : List String :=
  sents.foldl (fun acc s => if isTocSentence s then acc ++ [s] else acc) []

/-- A detected section: a heading sentence and the accumulated following
non-heading sentences (`app.py` lines 133-138). -/
structure Section where
  heading : String
  content : List String
deriving DecidableEq

/-- One iteration of the `detect_sections` loop (`app.py` lines 129-138):
the state is the finished-section list plus the optional open section. -/
def stepState (st : List Section × Option Section) (s : String) :
    List Section × Option Section :=
  if isHeading s then
    match st.2 with
    | some c => (st.1 ++ [c], some ⟨s, []⟩)
    | none => (st.1, some ⟨s, []⟩)
  else
    match st.2 with
    | some c => (st.1, some ⟨c.heading, c.content ++ [s]⟩)
    | none => st

/-- Run the `detect_sections` loop over a sentence stream from a given
state. -/
def runState (sents : List String) (st : List Section × Option Section) :
    List Section × Option Section :=
  sents.foldl stepState st

/-- Flushing the open section, if any. -/
def optFlush : Option Section → List Section
  | some c => [c]
  | none => []

/-- The final flush of `detect_sections` (`app.py` lines 140-141). -/
def finalizeState (st : List Section × Option Section) : List Section :=
  st.1 ++ optFlush st.2

/-- `detect_sections` (`app.py` lines 118-143): single pass over the
sentence stream, opening a section at each heading match, accumulating
non-heading sentences into the open section, discarding sentences seen
before the first heading, and flushing the open section at the end. -/
def detect_sections (sents : List String) : List Section :=
  finalizeState (runState sents ([], none))

/-- The layout label of a detected block (`label_map` of `app.py` line 59). -/
inductive Label
  | Text
  | Title
  | List
  | Table
  | Figure
deriving DecidableEq

/-- A detected layout block: label, vertical bounds (`block.block.y_1`
is the top coordinate, `block.block.y_2` the bottom) and its text.
Float coordinates are modelled as exact rationals. -/
structure Block where
  label : Label
  top : ℚ
  bottom : ℚ
  text : String
deriving DecidableEq

/-- Outcome of the header/footer zone rule for one block. -/
inductive Zone
  | header
  | footer
  | body
deriving DecidableEq

/-- The zone rule of `extract_pdf_structure` (`app.py` lines 70-77):
`if block.type == 'Title' and block.block.y_1 < page.height * 0.15`
record a header; `elif block.block.y_2 > page.height * 0.85` record a
footer; else the block is dropped. -/
def classify_zone (b : Block) (page_height : ℚ) : Zone :=
  if b.label = Label.Title ∧ b.top < page_height * (15 / 100) then Zone.header
  else if b.bottom > page_height * (85 / 100) then Zone.footer
  else Zone.body

/-- Python `set.add`, modelled as an insertion-ordered duplicate-free
list: append the text unless it is already present. -/
def addSet (xs : List String) (x : String) : List String :=
  if x ∈ xs then xs else xs ++ [x]

/-- Effect of one block on the `(headers, footers)` accumulator
(`app.py` lines 73-77). -/
def zoneStep (height : ℚ) (st : List String × List String) (b : Block) :
    List String × List String :=
  match classify_zone b height with
  | Zone.header => (addSet st.1 b.text, st.2)
  | Zone.footer => (st.1, addSet st.2 b.text)
  | Zone.body => st

/-- A page as the zone pass sees it: its height and its detected blocks. -/
structure Page where
  height : ℚ
  blocks : List Block

/-- Processing every block of one page (`app.py` inner loop, line 73). -/
def pageStep (st : List String × List String) (p : Page) :
    List String × List String :=
  p.blocks.foldl (zoneStep p.height) st

/-- The header/footer pass of `extract_pdf_structure` (`app.py` lines
62-77): `sample_pages = min(5, len(pdf.pages))` pages are scanned, in
order, accumulating the header and footer sets. -/
def headersFooters (pages : List Page) : List String × List String :=
  (pages.take (min 5 pages.length)).foldl pageStep ([], [])

/-- Python `str.strip` on ASCII text: drop leading and trailing
whitespace. -/
def stripStr (s : String) : String :=
  String.mk (((s.toList.dropWhile isSpaceChar).reverse.dropWhile
    isSpaceChar).reverse)

/-- Line 88 of `app.py`:
`[sent.text.strip() for sent in doc.sents if len(sent.text.strip()) > 20]`. -/
def paragraphs (sents : List String) : List String :=
  sents.foldl
    (fun acc s =>
      if 20 < (stripStr s).length then acc ++ [stripStr s] else acc) []

/-- Flattening of a section for order-preservation statements: the
heading followed by the content sentences. -/
def sectionFlat (sec : Section) : List String :=
  sec.heading :: sec.content

/-- Flattening of a section list in output order. -/
def flatSections (L : List Section) : List String :=
  (L.map sectionFlat).flatten

theorem flatSections_append (L1 L2 : List Section) :
    flatSections (L1 ++ L2) = flatSections L1 ++ flatSections L2 := by
  simp [flatSections]

theorem detect_toc_aux :
    ∀ (l acc : List String),
      l.foldl (fun acc s => if isTocSentence s then acc ++ [s] else acc) acc
        = acc ++ l.filter isTocSentence := by
  intro l
  induction l with
  | nil => intro acc; simp
  | cons s rest ih =>
    intro acc
    by_cases h : isTocSentence s
    · simp [List.foldl_cons, h, ih, List.filter_cons]
    · simp [List.foldl_cons, h, ih, List.filter_cons]

theorem paragraphs_aux :
    ∀ (l acc : List String),
      l.foldl
        (fun acc s =>
          if 20 < (stripStr s).length then acc ++ [stripStr s] else acc) acc
        = acc ++ (l.map stripStr).filter (fun t => decide (20 < t.length)) := by
  intro l
  induction l with
  | nil => intro acc; simp
  | cons s rest ih =>
    intro acc
    by_cases h : 20 < (stripStr s).length
    · simp [List.foldl_cons, h, ih, List.filter_cons]
    · simp [List.foldl_cons, h, ih, List.filter_cons]

theorem runState_cons (s : String) (rest : List String)
    (st : List Section × Option Section) :
    runState (s :: rest) st = runState rest (stepState st s) := rfl

theorem runState_acc (sents : List String) :
    ∀ (acc : List Section) (cur : Option Section),
      runState sents (acc, cur) =
        (acc ++ (runState sents ([], cur)).1, (runState sents ([], cur)).2) := by
  induction sents with
  | nil => intro acc cur; simp [runState]
  | cons s rest ih =>
    intro acc cur
    rw [runState_cons, runState_cons]
    by_cases h : isHeading s
    · cases cur with
      | some c =>
        simp only [stepState, h, if_pos, List.nil_append]
        rw [ih (acc ++ [c]), ih [c]]
        simp
      | none =>
        simp only [stepState, h, if_pos]
        exact ih acc (some ⟨s, []⟩)
    · cases cur with
      | some c =>
        simp only [stepState, h, if_neg, Bool.false_eq_true, not_false_iff]
        exact ih acc (some ⟨c.heading, c.content ++ [s]⟩)
      | none =>
        simp only [stepState, h, if_neg, Bool.false_eq_true, not_false_iff]
        exact ih acc none

theorem finalize_acc (sents : List String) (acc : List Section)
    (cur : Option Section) :
    finalizeState (runState sents (acc, cur)) =
      acc ++ finalizeState (runState sents ([], cur)) := by
  rw [runState_acc]
  simp [finalizeState]

theorem runState_some_head (sents : List String) :
    ∀ c : Section, ∃ ext rest,
      finalizeState (runState sents ([], some c)) =
        Section.mk c.heading (c.content ++ ext) :: rest := by
  induction sents with
  | nil =>
    intro c
    exact ⟨[], [], by simp [runState, finalizeState, optFlush]⟩
  | cons s rest ih =>
    intro c
    rw [runState_cons]
    by_cases h : isHeading s
    · obtain ⟨ext, r, hr⟩ := ih ⟨s, []⟩
      refine ⟨[], Section.mk s ext :: r, ?_⟩
      simp only [stepState, h, if_pos]
      rw [finalize_acc, hr]
      simp
    · obtain ⟨ext, r, hr⟩ := ih ⟨c.heading, c.content ++ [s]⟩
      refine ⟨s :: ext, r, ?_⟩
      simp only [stepState, h, if_neg, Bool.false_eq_true, not_false_iff]
      rw [hr]
      simp

theorem flat_runState_some (sents : List String) :
    ∀ c : Section,
      flatSections (finalizeState (runState sents ([], some c))) =
        (c.heading :: c.content) ++ sents := by
  induction sents with
  | nil =>
    intro c
    simp [runState, finalizeState, optFlush, flatSections, sectionFlat]
  | cons s rest ih =>
    intro c
    rw [runState_cons]
    by_cases h : isHeading s
    · simp only [stepState, h, if_pos, List.nil_append]
      rw [finalize_acc, flatSections_append, ih ⟨s, []⟩]
      simp [flatSections, sectionFlat]
    · simp only [stepState, h, if_neg, Bool.false_eq_true, not_false_iff]
      rw [ih ⟨c.heading, c.content ++ [s]⟩]
      simp

theorem runState_none_no_heading :
    ∀ sents : List String, (∀ s ∈ sents, isHeading s = false) →
      runState sents ([], none) = ([], none) := by
  intro sents
  induction sents with
  | nil => intro _; rfl
  | cons s rest ih =>
    intro hall
    rw [runState_cons]
    have hs : isHeading s = false := hall s (List.mem_cons_self s rest)
    simp only [stepState, hs, Bool.false_eq_true, if_neg, not_false_iff]
    exact ih (fun t ht => hall t (List.mem_cons_of_mem s ht))

theorem take_min_length {α : Type} (l : List α) (n : Nat) :
    l.take (min n l.length) = l.take n := by
  rcases le_total l.length n with h | h
  · rw [min_eq_right h, List.take_length, List.take_of_length_le h]
  · rw [min_eq_left h]

/-- C1: the spec's Scenario A claims that on the input
`["Chapter 1 Intro", "This is body text.", "Chapter 2 Methods", "More text."]`
`detect_sections` returns two sections headed by the two capitalized
chapter lines.  It does not: heading matching is case-sensitive on the
original text and `Chapter` (capital C) matches none of the three heading
patterns, so the whole input is discarded. -/
theorem scenarioA_counterexample :
    detect_sections
        ["Chapter 1 Intro", "This is body text.", "Chapter 2 Methods",
         "More text."] ≠
      [Section.mk "Chapter 1 Intro" ["This is body text."],
       Section.mk "Chapter 2 Methods" ["More text."]] := by
  decide

/-- C1 (amended): on the capitalized Scenario A input `detect_sections`
returns the empty list, because neither capitalized chapter line matches
a heading pattern under original-case matching; on the lowercased variant
of the same input it returns exactly the two claimed sections. -/
theorem scenarioA_amended :
    detect_sections
        ["Chapter 1 Intro", "This is body text.", "Chapter 2 Methods",
         "More text."] = [] ∧
    isHeading "Chapter 1 Intro" = false ∧
    isHeading "Chapter 2 Methods" = false ∧
    detect_sections
        ["chapter 1 intro", "This is body text.", "chapter 2 methods",
         "More text."] =
      [Section.mk "chapter 1 intro" ["This is body text."],
       Section.mk "chapter 2 methods" ["More text."]] := by
  refine ⟨by decide, by decide, by decide, by decide⟩

/-- C2: the zone rule of `extract_pdf_structure`: a block is classified
as header iff it is a Title block whose top lies strictly above 15% of
the page height; otherwise as footer iff its bottom lies strictly below
85% of the page height, regardless of label; otherwise it is dropped as
body.  In particular a Title block in the header zone is never a footer,
whatever its bottom coordinate. -/
theorem classify_zone_rule (b : Block) (h : ℚ) :
    (classify_zone b h = Zone.header ↔
      b.label = Label.Title ∧ b.top < h * (15 / 100)) ∧
    (classify_zone b h = Zone.footer ↔
      ¬(b.label = Label.Title ∧ b.top < h * (15 / 100)) ∧
        b.bottom > h * (85 / 100)) ∧
    (classify_zone b h = Zone.body ↔
      ¬(b.label = Label.Title ∧ b.top < h * (15 / 100)) ∧
        ¬b.bottom > h * (85 / 100)) ∧
    (b.label = Label.Title ∧ b.top < h * (15 / 100) →
      classify_zone b h ≠ Zone.footer) := by
  by_cases h1 : b.label = Label.Title ∧ b.top < h * (15 / 100) <;>
    by_cases h2 : b.bottom > h * (85 / 100) <;>
      simp [classify_zone, h1, h2]

/-- C2 witness: Scenario D of the spec — on a page of height 1000, the
Title block with top 50 is a header, and the Text block with bottom 950
is a footer. -/
theorem classify_zone_rule_witness :
    classify_zone (Block.mk Label.Title 50 90 "h1") 1000 = Zone.header ∧
    classify_zone (Block.mk Label.Text 900 950 "f1") 1000 = Zone.footer := by
  constructor
  · exact ((classify_zone_rule (Block.mk Label.Title 50 90 "h1") 1000).1).mpr
      ⟨rfl, by norm_num⟩
  · exact ((classify_zone_rule (Block.mk Label.Text 900 950 "f1") 1000).2.1).mpr
      ⟨by simp, by norm_num⟩

/-- C3: one loop iteration of the header/footer pass adds the block's
text to the header set, or to the footer set, or to neither — never to
both; and when the header-zone test succeeds the footer set is untouched,
because the `elif` never runs. -/
theorem zoneStep_exclusive (height : ℚ) (st : List String × List String)
    (b : Block) :
    (zoneStep height st b = (addSet st.1 b.text, st.2) ∨
     zoneStep height st b = (st.1, addSet st.2 b.text) ∨
     zoneStep height st b = st) ∧
    ((zoneStep height st b).1 = st.1 ∨ (zoneStep height st b).2 = st.2) ∧
    (b.label = Label.Title ∧ b.top < height * (15 / 100) →
      zoneStep height st b = (addSet st.1 b.text, st.2)) := by
  refine ⟨?_, ?_, ?_⟩
  · rcases hz : classify_zone b height <;> simp [zoneStep, hz]
  · rcases hz : classify_zone b height <;> simp [zoneStep, hz]
  · intro hcond
    have hz : classify_zone b height = Zone.header := by
      simp [classify_zone, hcond]
    simp [zoneStep, hz]

/-- C3 witness: a Title block lying in both the header zone (top 50) and
the footer zone (bottom 1000) of a page of height 1000 goes to the header
set only. -/
theorem zoneStep_exclusive_witness :
    zoneStep 1000 ([], []) (Block.mk Label.Title 50 1000 "x") =
      (["x"], []) := by
  have h :=
    (zoneStep_exclusive 1000 ([], []) (Block.mk Label.Title 50 1000 "x")).2.2
      ⟨rfl, by norm_num⟩
  simpa [addSet] using h

/-- C4: `detect_toc` returns exactly the document-order subsequence of
the sentences whose lowercased text matches some TOC pattern, each kept
with its original text — that is, it is the filter of the sentence stream
by `isTocSentence`: duplicates are retained and the output is empty when
nothing matches. -/
theorem detect_toc_eq_filter (sents : List String) :
    detect_toc sents = sents.filter isTocSentence := by
  rw [detect_toc, detect_toc_aux sents []]
  rfl

/-- C5: when no sentence of the stream matches a heading pattern,
`detect_sections` returns the empty list, whatever content the stream
has; in particular Scenario B, the single sentence
`"Random text before heading."`, yields no sections. -/
theorem detect_sections_no_heading_empty :
    (∀ sents : List String, (∀ s ∈ sents, isHeading s = false) →
      detect_sections sents = []) ∧
    detect_sections ["Random text before heading."] = [] := by
  constructor
  · intro sents hall
    rw [detect_sections, runState_none_no_heading sents hall]
    rfl
  · decide

/-- C5 witness: the general part of the claim applied to Scenario B. -/
theorem detect_sections_no_heading_empty_witness :
    detect_sections ["Random text before heading."] = [] :=
  detect_sections_no_heading_empty.1 ["Random text before heading."]
    (by decide)

/-- C6: whenever two consecutive sentences both match a heading pattern,
the output of `detect_sections` contains a section for the first heading
with empty content immediately followed by the section opened for the
second heading. -/
theorem detect_sections_consecutive_headings (pre : List String)
    (a b : String) (post : List String)
    (ha : isHeading a = true) (hb : isHeading b = true) :
    ∃ done content₂ rest,
      detect_sections (pre ++ a :: b :: post) =
        done ++ Section.mk a [] :: Section.mk b content₂ :: rest := by
  rw [detect_sections, runState, List.foldl_append]
  generalize List.foldl stepState ([], none) pre = p
  obtain ⟨p1, p2⟩ := p
  have hstep1 : stepState (p1, p2) a =
      (p1 ++ optFlush p2, some (Section.mk a [])) := by
    rcases p2 with _ | c <;> simp [stepState, ha, optFlush]
  have hstep2 : stepState (p1 ++ optFlush p2, some (Section.mk a [])) b =
      ((p1 ++ optFlush p2) ++ [Section.mk a []], some (Section.mk b [])) := by
    simp [stepState, hb]
  rw [List.foldl_cons, hstep1, List.foldl_cons, hstep2]
  obtain ⟨ext, rest, hrest⟩ := runState_some_head post (Section.mk b [])
  refine ⟨p1 ++ optFlush p2, ext, rest, ?_⟩
  have hfin := finalize_acc post ((p1 ++ optFlush p2) ++ [Section.mk a []])
    (some (Section.mk b []))
  simp only [runState] at hfin hrest
  rw [hfin, hrest]
  simp

/-- C6 witness: the two consecutive headings `"1 A"` and `"2 B"` with no
surrounding sentences. -/
theorem detect_sections_consecutive_headings_witness :
    ∃ done content₂ rest,
      detect_sections ["1 A", "2 B"] =
        done ++ Section.mk "1 A" [] :: Section.mk "2 B" content₂ :: rest :=
  detect_sections_consecutive_headings [] "1 A" "2 B" [] (by decide)
    (by decide)

/-- C7: the dot-leader line `"....................... 42"` is collected
by `detect_toc` (it matches the trailing dots-plus-page-number TOC
pattern) and is not treated as a heading by `detect_sections`. -/
theorem scenarioC_dot_leader :
    detect_toc ["....................... 42"] =
      ["....................... 42"] ∧
    isTocSentence "....................... 42" = true ∧
    isHeading "....................... 42" = false ∧
    detect_sections ["....................... 42"] = [] := by
  refine ⟨by decide, by decide, by decide, by decide⟩

/-- C8: the headings and contents of the sections returned by
`detect_sections`, flattened in output order, form a subsequence of the
input sentence stream; hence each section's content is in original
document order and every input sentence position feeds at most one
section. -/
theorem detect_sections_order_preservation (sents : List String) :
    (flatSections (detect_sections sents)).Sublist sents ∧
    ∀ sec ∈ detect_sections sents, sec.content.Sublist sents := by
  have main : (flatSections (detect_sections sents)).Sublist sents := by
    induction sents with
    | nil => simp [detect_sections, runState, finalizeState, optFlush,
        flatSections]
    | cons s rest ih =>
      rw [detect_sections, runState_cons]
      by_cases h : isHeading s
      · simp only [stepState, h, if_pos]
        rw [flat_runState_some rest (Section.mk s [])]
        simp
      · simp only [stepState, h, if_neg, Bool.false_eq_true, not_false_iff]
        exact List.Sublist.cons s ih
  refine ⟨main, fun sec hsec => ?_⟩
  have h1 : sectionFlat sec ∈ (detect_sections sents).map sectionFlat :=
    List.mem_map_of_mem sectionFlat hsec
  have h2 : (sectionFlat sec).Sublist (flatSections (detect_sections sents)) :=
    List.sublist_flatten_of_mem h1
  have h3 : sec.content.Sublist (sectionFlat sec) :=
    List.sublist_cons_self sec.heading sec.content
  exact (h3.trans h2).trans main

/-- C8 witness: on the stream `["1 A", "x"]` the single returned section
has content `["x"]`, a subsequence of the input. -/
theorem detect_sections_order_preservation_witness :
    (Section.mk "1 A" ["x"]).content.Sublist ["1 A", "x"] :=
  (detect_sections_order_preservation ["1 A", "x"]).2
    (Section.mk "1 A" ["x"]) (by decide)

/-- C9: the spec claims the core applies no minimum-length filter to
paragraphs.  It does: line 88 of `app.py` keeps only stripped sentences
longer than 20 characters, so the two-character sentence `"hi"` is
dropped from the paragraph list instead of being kept. -/
theorem paragraphs_filtered_counterexample :
    paragraphs ["hi"] = [] ∧ paragraphs ["hi"] ≠ ["hi"] := by
  refine ⟨by decide, by decide⟩

/-- C9 (amended): the core's paragraph extraction DOES apply a fixed
minimum-length filter: the paragraphs list is exactly the stripped
sentence texts of length strictly greater than 20; the display-time
slider threshold is a further filter on top of this. -/
theorem paragraphs_eq_filter_min_length (sents : List String) :
    paragraphs sents =
      (sents.map stripStr).filter (fun t => decide (20 < t.length)) := by
  rw [paragraphs, paragraphs_aux sents []]
  rfl

/-- C10: the header/footer pass reads only the first `min 5 n` pages of
an `n`-page document: its result on any page list equals its result on
the first five pages, so a block appearing only from the sixth page on
never reaches the header or footer set. -/
theorem headersFooters_first_five_pages (pages : List Page) :
    headersFooters pages = headersFooters (pages.take 5) := by
  rw [headersFooters, headersFooters, take_min_length, take_min_length,
    List.take_take]
  simp

end App
